import Mathlib

/-!
Verification of the authorization and relationship-state model of the
community/messaging application (controllers under src/controllers).

The controllers are embedded directly from the source.  The entity
services (UserService, ServerService, ChannelService,
PrivateMessageService) are not part of the reviewed sources; wherever a
claim depends on them they are modelled from the specification, each
such definition carrying a doc comment starting with
`Modelled from the spec:`.
-/

/-- Typed domain error: a status code plus a message, as produced by the
error classes in utils/errors.js and translated by the controllers'
catch blocks into `res.status(error.statusCode)` with `error.message`. -/
structure Err where
  statusCode : Nat
  message : String
deriving DecidableEq, Repr

/-- Per-server membership entry, one element of a Server's `users`
collection: `{ id, permissionLevel }`. -/
structure ServerUser where
  id : Nat
  permissionLevel : Int
deriving DecidableEq, Repr

/-- Server record: id, name, creatorId, ordered membership collection,
and the list of channel ids. -/
structure ServerRec where
  id : Nat
  name : String
  creatorId : Nat
  users : List ServerUser
  channels : List Nat
deriving DecidableEq, Repr

/-- Channel record: owning server, display fields, minimum permission
level required to view, and the ordered message-id list. -/
structure ChannelRec where
  id : Nat
  serverId : Nat
  name : String
  description : String
  permissionLevel : Int
  messages : List Nat
deriving DecidableEq, Repr

/-- Message record: authoring user and body. -/
structure MessageRec where
  id : Nat
  userId : Nat
  message : String
deriving DecidableEq, Repr

/-- User record: identity plus the relationship sets `friends` and
`friendRequests` (pending inbound requests). -/
structure UserRec where
  id : Nat
  username : String
  friends : List Nat
  friendRequests : List Nat
deriving DecidableEq, Repr

/-- The document store: one list per persisted entity kind, plus the
private conversations, each keyed by a normalized (unordered) pair of
user ids. -/
structure Store where
  users : List UserRec
  servers : List ServerRec
  channels : List ChannelRec
  messages : List MessageRec
  convos : List (Nat × Nat)
deriving DecidableEq, Repr

/-- Normalized key for the unordered pair of user ids of a private
conversation. -/
def normPair (a b : Nat) : Nat × Nat :=
  if a ≤ b then (a, b) else (b, a)

theorem normPair_comm (a b : Nat) : normPair a b = normPair b a := by
  unfold normPair
  rcases le_or_lt a b with h | h
  · rcases lt_or_eq_of_le h with h2 | h2
    · rw [if_pos h, if_neg (not_le.mpr h2)]
    · subst h2; simp
  · rw [if_neg (not_le.mpr h), if_pos (le_of_lt h)]

namespace ChannelService

/-- Lookup of a channel by id; `NotFoundError` (404) when absent, as the
channel service's `getChannelById` is documented to raise for a missing
entity (service code external; behaviour per spec error taxonomy). -/
def getChannelById (st : Store) (cid : Nat) : Except Err ChannelRec :=
  match st.channels.find? (fun c => c.id == cid) with
  | some c => Except.ok c
  | none => Except.error ⟨404, "Channel not found."⟩

end ChannelService

namespace ServerService

/-- Lookup of a server by id; `NotFoundError` (404) when absent. -/
def getServerById (st : Store) (sid : Nat) : Except Err ServerRec :=
  match st.servers.find? (fun s => s.id == sid) with
  | some s => Except.ok s
  | none => Except.error ⟨404, "Server not found."⟩

end ServerService

namespace MessageService

/-- Lookup of a message by id; `NotFoundError` (404) when absent. -/
def getMessageById (st : Store) (mid : Nat) : Except Err MessageRec :=
  match st.messages.find? (fun m => m.id == mid) with
  | some m => Except.ok m
  | none => Except.error ⟨404, "Message not found."⟩

end MessageService

namespace UserService

/-- Lookup of a user by id; `NotFoundError` (404) when absent. -/
def getUserById (st : Store) (uid : Nat) : Except Err UserRec :=
  match st.users.find? (fun u => u.id == uid) with
  | some u => Except.ok u
  | none => Except.error ⟨404, "User not found."⟩

end UserService

/-- One rendered message of the channel main page: the object built for
each message id inside `renderChannelMainPage`. -/
structure RenderedMsg where
  id : Nat
  userId : Nat
  username : String
  message : String
deriving DecidableEq, Repr

/-- A rendered HTTP response of the channel page route: either the
channel main view payload or an error view with status code and
message. -/
inductive Response where
  | channelMain (serverId : Nat) (name : String) (description : String)
      (messages : List RenderedMsg) (canSend : Bool)
  | errorPage (statusCode : Nat) (message : String)
deriving DecidableEq, Repr

/-- Assembly of one message for the view: fetch the message, fetch its
author, and project id, author id, username and body
(channel.controller.js lines 26-36). -/
def renderMessage (st : Store) (mid : Nat) : Except Err RenderedMsg :=
  match MessageService.getMessageById st mid with
  | Except.error e => Except.error e
  | Except.ok m =>
    match UserService.getUserById st m.userId with
    | Except.error e => Except.error e
    | Except.ok u => Except.ok ⟨m.id, u.id, u.username, m.message⟩

/-- Assembly of the whole message list (the `Promise.all` over
`channel.messages`); the first failing lookup fails the request. -/
def renderMessages (st : Store) : List Nat → Except Err (List RenderedMsg)
  | [] => Except.ok []
  | mid :: rest =>
    match renderMessage st mid with
    | Except.error e => Except.error e
    | Except.ok r =>
      match renderMessages st rest with
      | Except.error e => Except.error e
      | Except.ok rs => Except.ok (r :: rs)

/-- Body of `renderChannelMainPage` up to the catch block
(channel.controller.js lines 13-72): fetch channel, owning server and
all messages, then decide access from the session identity, the server
membership list and the channel's permission level. -/
def renderChannelMainPageTry (st : Store) (session : Option Nat) (cid : Nat) :
    Except Err Response :=
  match ChannelService.getChannelById st cid with
  | Except.error e => Except.error e
  | Except.ok channel =>
    match ServerService.getServerById st channel.serverId with
    | Except.error e => Except.error e
    | Except.ok server =>
      match renderMessages st channel.messages with
      | Except.error e => Except.error e
      | Except.ok messages =>
        match session with
        | some uid =>
          if (server.users.map (fun u => u.id)).contains uid then
            match server.users.find? (fun u => u.id == uid) with
            | some entry =>
              if entry.permissionLevel ≥ channel.permissionLevel then
                Except.ok (Response.channelMain channel.serverId channel.name
                  channel.description messages true)
              else
                Except.ok (Response.errorPage 403 "Insufficient permissions.")
            | none =>
              Except.ok (Response.errorPage 403 "Insufficient permissions.")
          else
            Except.ok (Response.errorPage 403 "Insufficient permissions.")
        | none => Except.ok (Response.errorPage 403 "Insufficient permissions.")

/-- Whole route `GET /channel/:channelId`: the try body with the catch
block, which renders the error view from the typed error's status code
and message (both branches of the catch render identically). -/
def renderChannelMainPage (st : Store) (session : Option Nat) (cid : Nat) :
    Response :=
  match renderChannelMainPageTry st session cid with
  | Except.ok r => r
  | Except.error e => Response.errorPage e.statusCode e.message

/-- Authorization contract of spec section 4.1, stated over a server's
membership collection: deny anonymous callers, deny non-members, and
otherwise grant iff the member's stored permission level is at least the
required level.  Textually follows the spec contract; its structure
coincides with the inline check of `renderChannelMainPageTry`. -/
def canAccess (srv : ServerRec) (session : Option Nat) (required : Int) : Bool :=
  match session with
  | none => false
  | some uid =>
    if (srv.users.map (fun u => u.id)).contains uid then
      match srv.users.find? (fun u => u.id == uid) with
      | some entry => decide (entry.permissionLevel ≥ required)
      | none => false
    else false

theorem renderMessages_ok (st : Store) (l : List Nat)
    (h : ∀ mid ∈ l, ∃ r, renderMessage st mid = Except.ok r) :
    ∃ rs, renderMessages st l = Except.ok rs := by
  induction l with
  | nil => exact ⟨[], rfl⟩
  | cons mid rest ih =>
    obtain ⟨r, hr⟩ := h mid (List.mem_cons_self mid rest)
    obtain ⟨rs, hrs⟩ := ih (fun m hm => h m (List.mem_cons_of_mem _ hm))
    exact ⟨r :: rs, by simp only [renderMessages, hr, hrs]⟩

theorem render_eval (st : Store) (session : Option Nat) (cid : Nat)
    (ch : ChannelRec) (srv : ServerRec) (rs : List RenderedMsg)
    (hch : ChannelService.getChannelById st cid = Except.ok ch)
    (hsrv : ServerService.getServerById st ch.serverId = Except.ok srv)
    (hmsg : renderMessages st ch.messages = Except.ok rs) :
    renderChannelMainPage st session cid =
      if canAccess srv session ch.permissionLevel then
        Response.channelMain ch.serverId ch.name ch.description rs true
      else Response.errorPage 403 "Insufficient permissions." := by
  unfold renderChannelMainPage renderChannelMainPageTry canAccess
  simp only [hch, hsrv, hmsg]
  cases session with
  | none => rfl
  | some uid =>
    by_cases hc : ((srv.users.map (fun u => u.id)).contains uid) = true
    · simp only [hc, if_true]
      cases hf : srv.users.find? (fun u => u.id == uid) with
      | none => rfl
      | some entry =>
        by_cases hp : entry.permissionLevel ≥ ch.permissionLevel
        · simp [hp]
        · simp [hp]
    · simp only [hc, Bool.false_eq_true, if_false]

theorem canAccess_none (srv : ServerRec) (L : Int) : canAccess srv none L = false :=
  rfl

theorem canAccess_some_iff (srv : ServerRec) (uid : Nat) (L : Int)
    (hnodup : (srv.users.map (fun u => u.id)).Nodup) :
    canAccess srv (some uid) L = true ↔
      ∃ e ∈ srv.users, e.id = uid ∧ L ≤ e.permissionLevel := by
  unfold canAccess
  by_cases hc : ((srv.users.map (fun u => u.id)).contains uid) = true
  · simp only [hc, if_true]
    cases hf : srv.users.find? (fun u => u.id == uid) with
    | none =>
      exfalso
      rw [List.elem_iff] at hc
      obtain ⟨e, he, heid⟩ := List.mem_map.mp hc
      have := List.find?_eq_none.mp hf e he
      simp [heid] at this
    | some entry =>
      have hpe : entry.id = uid := by
        have := List.find?_some hf
        simpa using this
      have hmem : entry ∈ srv.users := List.mem_of_find?_eq_some hf
      simp only [decide_eq_true_eq]
      constructor
      · intro hge
        exact ⟨entry, hmem, hpe, hge⟩
      · intro ⟨e, he, heid, hge⟩
        have : e = entry := by
          apply List.inj_on_of_nodup_map hnodup he hmem
          rw [heid, hpe]
        rw [← this]
        exact hge
  · simp only [hc, Bool.false_eq_true, if_false, false_iff]
    intro ⟨e, he, heid, _⟩
    apply hc
    rw [List.elem_iff]
    exact List.mem_map.mpr ⟨e, he, heid⟩

/-- C1: on the channel page route, access to the channel is granted if
and only if the session user has an entry in the owning server's `users`
collection whose `permissionLevel` is at least the channel's required
level (inclusive comparison); a caller with no entry is denied with the
fixed 403 response, and an anonymous caller (no session identity) is
always denied, whatever the membership data. -/
theorem c1_channel_access (st : Store) (session : Option Nat) (cid : Nat)
    (ch : ChannelRec) (srv : ServerRec)
    (hch : ChannelService.getChannelById st cid = Except.ok ch)
    (hsrv : ServerService.getServerById st ch.serverId = Except.ok srv)
    (hres : ∀ mid ∈ ch.messages, ∃ r, renderMessage st mid = Except.ok r)
    (hnodup : (srv.users.map (fun u => u.id)).Nodup) :
    ((∃ msgs, renderChannelMainPage st session cid =
        Response.channelMain ch.serverId ch.name ch.description msgs true) ↔
      (∃ uid, session = some uid ∧
        ∃ e ∈ srv.users, e.id = uid ∧ ch.permissionLevel ≤ e.permissionLevel))
    ∧ ((∃ msgs, renderChannelMainPage st session cid =
          Response.channelMain ch.serverId ch.name ch.description msgs true) ∨
        renderChannelMainPage st session cid =
          Response.errorPage 403 "Insufficient permissions.")
    ∧ renderChannelMainPage st none cid =
        Response.errorPage 403 "Insufficient permissions." := by
  obtain ⟨rs, hrs⟩ := renderMessages_ok st ch.messages hres
  have heval := render_eval st session cid ch srv rs hch hsrv hrs
  have hevalNone := render_eval st none cid ch srv rs hch hsrv hrs
  refine ⟨?_, ?_, ?_⟩
  · rw [heval]
    by_cases ha : canAccess srv session ch.permissionLevel = true
    · simp only [ha, if_true]
      constructor
      · intro _
        cases session with
        | none => rw [canAccess_none] at ha; exact absurd ha (by simp)
        | some uid =>
          exact ⟨uid, rfl, (canAccess_some_iff srv uid ch.permissionLevel hnodup).mp ha⟩
      · intro _
        exact ⟨rs, rfl⟩
    · simp only [ha, Bool.false_eq_true, if_false]
      constructor
      · intro ⟨msgs, hcontra⟩
        exact absurd hcontra (by simp)
      · intro ⟨uid, hsess, hcond⟩
        exfalso
        apply ha
        rw [hsess]
        exact (canAccess_some_iff srv uid ch.permissionLevel hnodup).mpr hcond
  · rw [heval]
    by_cases ha : canAccess srv session ch.permissionLevel = true
    · exact Or.inl ⟨rs, by simp [ha]⟩
    · exact Or.inr (by simp [ha])
  · rw [hevalNone, canAccess_none]
    simp

/-- Concrete channel for witnesses: requires permission level 3, no
messages. -/
def chW : ChannelRec := ⟨100, 10, "general", "", 3, []⟩

/-- Concrete server for witnesses: creator is user 1 at level 3, user 2
is a member at level 2. -/
def srvW : ServerRec := ⟨10, "srv", 1, [⟨1, 3⟩, ⟨2, 2⟩], [100]⟩

/-- Concrete store for witnesses. -/
def stW : Store :=
  ⟨[⟨1, "alice", [], []⟩, ⟨2, "bob", [], []⟩], [srvW], [chW], [], []⟩

theorem c1_channel_access_witness :
    (ChannelService.getChannelById stW 100 = Except.ok chW) ∧
    (ServerService.getServerById stW chW.serverId = Except.ok srvW) ∧
    (∀ mid ∈ chW.messages, ∃ r, renderMessage stW mid = Except.ok r) ∧
    ((srvW.users.map (fun u => u.id)).Nodup) ∧
    (((∃ msgs, renderChannelMainPage stW (some 1) 100 =
        Response.channelMain chW.serverId chW.name chW.description msgs true) ↔
      (∃ uid, (some 1 : Option Nat) = some uid ∧
        ∃ e ∈ srvW.users, e.id = uid ∧ chW.permissionLevel ≤ e.permissionLevel))
    ∧ ((∃ msgs, renderChannelMainPage stW (some 1) 100 =
          Response.channelMain chW.serverId chW.name chW.description msgs true) ∨
        renderChannelMainPage stW (some 1) 100 =
          Response.errorPage 403 "Insufficient permissions.")
    ∧ renderChannelMainPage stW none 100 =
        Response.errorPage 403 "Insufficient permissions.") :=
  ⟨rfl, rfl, by intro mid hmid; simp [chW] at hmid, by decide,
    c1_channel_access stW (some 1) 100 chW srvW rfl rfl
      (by intro mid hmid; simp [chW] at hmid) (by decide)⟩

/-- C10: a caller who is denied access to a channel page (anonymous, not
a member, or a member below the channel's level) receives the one fixed
403 "Insufficient permissions." payload; two stores that agree on
everything the denial depends on and differ only in the channel's
message contents (and in its name and description) produce identical
responses for the denied caller, so no channel content reaches an
unauthorized caller. -/
theorem c10_denied_uniform (env1 env2 : Store) (session : Option Nat) (cid : Nat)
    (ch1 ch2 : ChannelRec) (srv : ServerRec)
    (hch1 : ChannelService.getChannelById env1 cid = Except.ok ch1)
    (hch2 : ChannelService.getChannelById env2 cid = Except.ok ch2)
    (hsid : ch2.serverId = ch1.serverId)
    (hlvl : ch2.permissionLevel = ch1.permissionLevel)
    (hmids : ch2.messages = ch1.messages)
    (hsrv1 : ServerService.getServerById env1 ch1.serverId = Except.ok srv)
    (hsrv2 : ServerService.getServerById env2 ch1.serverId = Except.ok srv)
    (hm1 : ∀ mid ∈ ch1.messages, ∃ r, renderMessage env1 mid = Except.ok r)
    (hm2 : ∀ mid ∈ ch1.messages, ∃ r, renderMessage env2 mid = Except.ok r)
    (hdenied : canAccess srv session ch1.permissionLevel = false) :
    renderChannelMainPage env1 session cid =
      Response.errorPage 403 "Insufficient permissions."
    ∧ renderChannelMainPage env2 session cid =
      renderChannelMainPage env1 session cid := by
  obtain ⟨rs1, hrs1⟩ := renderMessages_ok env1 ch1.messages hm1
  obtain ⟨rs2, hrs2⟩ := renderMessages_ok env2 ch1.messages hm2
  have h1 := render_eval env1 session cid ch1 srv rs1 hch1 hsrv1 hrs1
  have h2 := render_eval env2 session cid ch2 srv rs2 hch2
    (by rw [hsid]; exact hsrv2) (by rw [hmids]; exact hrs2)
  rw [h1, h2, hlvl, hdenied]
  simp

/-- Channel with one message, for the C10 witness. -/
def chM : ChannelRec := ⟨100, 10, "general", "", 3, [500]⟩

/-- Store whose single channel message says "hello". -/
def envA : Store :=
  ⟨[⟨1, "alice", [], []⟩, ⟨2, "bob", [], []⟩], [srvW], [chM],
    [⟨500, 1, "hello"⟩], []⟩

/-- Same store except the message body says "secret". -/
def envB : Store :=
  ⟨[⟨1, "alice", [], []⟩, ⟨2, "bob", [], []⟩], [srvW], [chM],
    [⟨500, 1, "secret"⟩], []⟩

theorem c10_denied_uniform_witness :
    (ChannelService.getChannelById envA 100 = Except.ok chM) ∧
    (ChannelService.getChannelById envB 100 = Except.ok chM) ∧
    (ServerService.getServerById envA chM.serverId = Except.ok srvW) ∧
    (ServerService.getServerById envB chM.serverId = Except.ok srvW) ∧
    (∀ mid ∈ chM.messages, ∃ r, renderMessage envA mid = Except.ok r) ∧
    (∀ mid ∈ chM.messages, ∃ r, renderMessage envB mid = Except.ok r) ∧
    (canAccess srvW (some 2) chM.permissionLevel = false) ∧
    (renderChannelMainPage envA (some 2) 100 =
        Response.errorPage 403 "Insufficient permissions."
      ∧ renderChannelMainPage envB (some 2) 100 =
        renderChannelMainPage envA (some 2) 100) :=
  ⟨rfl, rfl, rfl, rfl,
    by intro mid hmid; simp [chM] at hmid; subst hmid
       exact ⟨⟨500, 1, "alice", "hello"⟩, rfl⟩,
    by intro mid hmid; simp [chM] at hmid; subst hmid
       exact ⟨⟨500, 1, "alice", "secret"⟩, rfl⟩,
    by decide,
    c10_denied_uniform envA envB (some 2) 100 chM chM srvW rfl rfl rfl rfl rfl
      rfl rfl
      (by intro mid hmid; simp [chM] at hmid; subst hmid
          exact ⟨⟨500, 1, "alice", "hello"⟩, rfl⟩)
      (by intro mid hmid; simp [chM] at hmid; subst hmid
          exact ⟨⟨500, 1, "alice", "secret"⟩, rfl⟩)
      (by decide)⟩

/-- Relationship-state projection of the store used by the friend
operations: each user's `friends` and `friendRequests` sets (spec
section 3) and the private conversations, keyed by the normalized
unordered pair.  `requests u` is the set of ids with a pending inbound
request to `u` (u's `friendRequests`). -/
structure FriendState where
  friends : Nat → Finset Nat
  requests : Nat → Finset Nat
  convos : List (Nat × Nat)

/-- Initial relationship state: no friendships, no pending requests, no
conversations. -/
def initFriendState : FriendState :=
  ⟨fun _ => ∅, fun _ => ∅, []⟩

/-- Typed error for a send to an existing friend. -/
def alreadyFriendsErr : Err := ⟨400, "Users are already friends."⟩

/-- Typed error for accepting a request that does not exist. -/
def requestNotFoundErr : Err := ⟨404, "Friend request not found."⟩

namespace UserService

/-- Modelled from the spec: `UserService.sendFriendRequest(target,
requester)` is not in the reviewed sources.  Spec section 4.2
(`NONE -> PENDING`): "Adds requester's id to target's `friendRequests`";
since "sending a request is only meaningful from `NONE`" and domain
errors are typed (section 7), a send between users who are already
friends fails with a typed error; re-sending an already-pending request
is absorbed by the set insertion (the spec's idempotent guard). -/
def sendFriendRequest (target requester : Nat) (s : FriendState) :
    Except Err FriendState :=
  if requester ∈ s.friends target then Except.error alreadyFriendsErr
  else
    Except.ok
      { s with
        requests := fun u =>
          if u = target then insert requester (s.requests u) else s.requests u }

/-- Modelled from the spec: `UserService.acceptFriendRequest(target,
requester)` is not in the reviewed sources.  Spec section 4.2
(`PENDING -> FRIENDS`): "Removes the pending marker, adds each id into
the other's `friends` set"; the cross-request sentence of section 4.2
requires the flow to consume "both pending markers", so acceptance
clears the pair's pending markers in both directions.  Accepting when no
pending request from the requester exists fails with a typed error (the
transition is only defined from `PENDING`; errors are typed per
section 7). -/
def acceptFriendRequest (target requester : Nat) (s : FriendState) :
    Except Err FriendState :=
  if requester ∈ s.requests target then
    Except.ok
      { friends := fun u =>
          if u = target then insert requester (s.friends u)
          else if u = requester then insert target (s.friends u)
          else s.friends u,
        requests := fun u =>
          if u = target then (s.requests u).erase requester
          else if u = requester then (s.requests u).erase target
          else s.requests u,
        convos := s.convos }
  else Except.error requestNotFoundErr

/-- Modelled from the spec: `UserService.rejectFriendRequest(target,
requester)` is not in the reviewed sources.  Spec section 4.2
(`PENDING -> NONE`): "Removes the pending marker only; no conversation
is created." -/
def rejectFriendRequest (target requester : Nat) (s : FriendState) :
    FriendState :=
  { s with
    requests := fun u =>
      if u = target then (s.requests u).erase requester else s.requests u }

/-- Modelled from the spec: `UserService.removeFriend(userA, userB)` is
not in the reviewed sources.  Spec section 4.2 (`FRIENDS -> NONE`):
"Removes each from the other's `friends` set (symmetric removal)"; the
conversation is deleted separately by the controller. -/
def removeFriend (a b : Nat) (s : FriendState) : FriendState :=
  { s with
    friends := fun u =>
      if u = a then (s.friends u).erase b
      else if u = b then (s.friends u).erase a
      else s.friends u }

end UserService

namespace PrivateMessageService

/-- Modelled from the spec:
`PrivateMessageService.createPrivateMessage(target, requester)` is not
in the reviewed sources.  Spec section 3: a PrivateMessage conversation
is "keyed by the unordered pair of user ids; created once when two users
become friends"; the record for the pair's normalized key is appended to
the store (the calling flows are what keeps creation exactly-once). -/
def createPrivateMessage (target requester : Nat) (s : FriendState) :
    FriendState :=
  { s with convos := normPair target requester :: s.convos }

/-- Modelled from the spec:
`PrivateMessageService.deletePrivateMessage(userA, userB)` is not in the
reviewed sources.  Spec section 4.2 (`FRIENDS -> NONE`): "deletes the
associated PrivateMessage conversation" — every record keyed by the
pair is removed. -/
def deletePrivateMessage (a b : Nat) (s : FriendState) : FriendState :=
  { s with convos := s.convos.filter (fun p => p ≠ normPair a b) }

end PrivateMessageService

/-- `POST /api/user/friend/send` (user.controller.js lines 288-316):
`requester` is the session user, `target` is resolved from the request
body.  When the requester's own `friendRequests` already contains the
target (the target had previously requested the requester), the
controller sends, immediately accepts, and provisions the private
conversation; otherwise it only sends. -/
def sendFriendRequestCtrl (requester target : Nat) (s : FriendState) :
    Except Err FriendState :=
  if target ∈ s.requests requester then
    match UserService.sendFriendRequest target requester s with
    | Except.error e => Except.error e
    | Except.ok s1 =>
      match UserService.acceptFriendRequest target requester s1 with
      | Except.error e => Except.error e
      | Except.ok s2 =>
        Except.ok (PrivateMessageService.createPrivateMessage target requester s2)
  else
    UserService.sendFriendRequest target requester s

/-- `POST /api/user/friend` (user.controller.js lines 351-380): `target`
is the session user accepting, `requester` is taken from the body; the
controller accepts the request and then provisions the private
conversation, unconditionally in that order. -/
def addFriendCtrl (target requester : Nat) (s : FriendState) :
    Except Err FriendState :=
  match UserService.acceptFriendRequest target requester s with
  | Except.error e => Except.error e
  | Except.ok s1 =>
    Except.ok (PrivateMessageService.createPrivateMessage target requester s1)

/-- `DELETE /api/user/friend/reject` (user.controller.js lines 322-345):
the session user (`target`) rejects the pending request from
`requester`. -/
def rejectFriendRequestCtrl (target requester : Nat) (s : FriendState) :
    FriendState :=
  UserService.rejectFriendRequest target requester s

/-- `DELETE /api/user/friend` (user.controller.js lines 386-410): the
controller deletes the pair's private conversation and then removes the
friendship in both directions. -/
def removeFriendCtrl (a b : Nat) (s : FriendState) : FriendState :=
  UserService.removeFriend a b (PrivateMessageService.deletePrivateMessage a b s)

/-- One friend operation, as dispatched by the routes. -/
inductive FriendOp where
  | send (requester target : Nat)
  | accept (target requester : Nat)
  | reject (target requester : Nat)
  | unfriend (a b : Nat)
deriving DecidableEq, Repr

/-- Effect of one friend operation on the relationship state; a request
that fails with a typed error performs no mutation (the controller's
catch block only renders the error). -/
def applyFriendOp (s : FriendState) (op : FriendOp) : FriendState :=
  match op with
  | FriendOp.send requester target =>
    match sendFriendRequestCtrl requester target s with
    | Except.ok s1 => s1
    | Except.error _ => s
  | FriendOp.accept target requester =>
    match addFriendCtrl target requester s with
    | Except.ok s1 => s1
    | Except.error _ => s
  | FriendOp.reject target requester => rejectFriendRequestCtrl target requester s
  | FriendOp.unfriend a b => removeFriendCtrl a b s

/-- State reached from the initial state by a sequence of friend
operations. -/
def runFriendOps (l : List FriendOp) : FriendState :=
  l.foldl applyFriendOp initFriendState

/-- Pair invariant of the relationship model: friendship is symmetric
and a pending marker between two users excludes their friendship. -/
def FriendInv (s : FriendState) : Prop :=
  (∀ a b, a ∈ s.friends b → b ∈ s.friends a) ∧
  (∀ a b, a ∈ s.requests b → a ∉ s.friends b)

theorem sendFriendRequest_inv (t r : Nat) (s s1 : FriendState)
    (hinv : FriendInv s)
    (h : UserService.sendFriendRequest t r s = Except.ok s1) : FriendInv s1 := by
  obtain ⟨hsym, hexcl⟩ := hinv
  unfold UserService.sendFriendRequest at h
  by_cases hg : r ∈ s.friends t
  · rw [if_pos hg] at h
    exact absurd h (by simp)
  · rw [if_neg hg] at h
    injection h with h
    subst h
    constructor
    · intro a b hab
      exact hsym a b hab
    · intro a b hab
      show a ∉ s.friends b
      have hab2 : a ∈ (if b = t then insert r (s.requests b) else s.requests b) :=
        hab
      by_cases hbt : b = t
      · subst hbt
        rw [if_pos rfl] at hab2
        rcases Finset.mem_insert.mp hab2 with h1 | h1
        · subst h1
          exact hg
        · exact hexcl a _ h1
      · rw [if_neg hbt] at hab2
        exact hexcl a b hab2

theorem acceptFriendRequest_inv (t r : Nat) (s s2 : FriendState)
    (hinv : FriendInv s)
    (h : UserService.acceptFriendRequest t r s = Except.ok s2) : FriendInv s2 := by
  obtain ⟨hsym, hexcl⟩ := hinv
  unfold UserService.acceptFriendRequest at h
  by_cases hc : r ∈ s.requests t
  swap
  · rw [if_neg hc] at h
    exact absurd h (by simp)
  rw [if_pos hc] at h
  injection h with h
  subst h
  have hmemf : ∀ u x, x ∈ (if u = t then insert r (s.friends u)
      else if u = r then insert t (s.friends u) else s.friends u) →
      x ∈ s.friends u ∨ (u = t ∧ x = r) ∨ (u = r ∧ x = t) := by
    intro u x hx
    by_cases hut : u = t
    · rw [if_pos hut] at hx
      rcases Finset.mem_insert.mp hx with h1 | h1
      · exact Or.inr (Or.inl ⟨hut, h1⟩)
      · exact Or.inl h1
    · rw [if_neg hut] at hx
      by_cases hur : u = r
      · rw [if_pos hur] at hx
        rcases Finset.mem_insert.mp hx with h1 | h1
        · exact Or.inr (Or.inr ⟨hur, h1⟩)
        · exact Or.inl h1
      · rw [if_neg hur] at hx
        exact Or.inl hx
  have hmono : ∀ u x, x ∈ s.friends u →
      x ∈ (if u = t then insert r (s.friends u)
        else if u = r then insert t (s.friends u) else s.friends u) := by
    intro u x hx
    by_cases hut : u = t
    · rw [if_pos hut]
      exact Finset.mem_insert_of_mem hx
    · rw [if_neg hut]
      by_cases hur : u = r
      · rw [if_pos hur]
        exact Finset.mem_insert_of_mem hx
      · rw [if_neg hur]
        exact hx
  have hrt : t ∈ (if r = t then insert r (s.friends r)
      else if r = r then insert t (s.friends r) else s.friends r) := by
    by_cases h1 : r = t
    · subst h1
      rw [if_pos rfl]
      exact Finset.mem_insert_self _ _
    · rw [if_neg h1, if_pos rfl]
      exact Finset.mem_insert_self _ _
  have htr : r ∈ (if t = t then insert r (s.friends t)
      else if t = r then insert t (s.friends t) else s.friends t) := by
    rw [if_pos rfl]
    exact Finset.mem_insert_self _ _
  constructor
  · intro a b hab
    rcases hmemf b a hab with h1 | ⟨hbt, har⟩ | ⟨hbr, hat⟩
    · exact hmono a b (hsym a b h1)
    · subst hbt
      subst har
      exact hrt
    · subst hbr
      subst hat
      exact htr
  · intro a b hab
    have hab2 : a ∈ (if b = t then (s.requests b).erase r
        else if b = r then (s.requests b).erase t else s.requests b) := hab
    have hreq : a ∈ s.requests b ∧ (b = t → a ≠ r) ∧ (b = r → a ≠ t) := by
      by_cases h1 : b = t
      · rw [if_pos h1] at hab2
        refine ⟨(Finset.mem_erase.mp hab2).2, fun _ => (Finset.mem_erase.mp hab2).1, ?_⟩
        intro hbr hat
        exact (Finset.mem_erase.mp hab2).1 (hat.trans (hbr.symm.trans h1).symm)
      · rw [if_neg h1] at hab2
        by_cases h2 : b = r
        · rw [if_pos h2] at hab2
          exact ⟨(Finset.mem_erase.mp hab2).2, fun hbt => absurd hbt h1,
            fun _ => (Finset.mem_erase.mp hab2).1⟩
        · rw [if_neg h2] at hab2
          exact ⟨hab2, fun hbt => absurd hbt h1, fun hbr => absurd hbr h2⟩
    intro hcon
    rcases hmemf b a hcon with hf | ⟨hbt, har⟩ | ⟨hbr, hat⟩
    · exact hexcl a b hreq.1 hf
    · exact hreq.2.1 hbt har
    · exact hreq.2.2 hbr hat

theorem rejectFriendRequest_inv (t r : Nat) (s : FriendState)
    (hinv : FriendInv s) : FriendInv (UserService.rejectFriendRequest t r s) := by
  obtain ⟨hsym, hexcl⟩ := hinv
  constructor
  · intro a b hab
    exact hsym a b hab
  · intro a b hab
    show a ∉ s.friends b
    by_cases hbt : b = t
    · subst hbt
      have hab2 : a ∈ (s.requests b).erase r := by
        have : a ∈ (if b = b then (s.requests b).erase r else s.requests b) := hab
        rwa [if_pos rfl] at this
      exact hexcl a _ (Finset.mem_erase.mp hab2).2
    · have hab2 : a ∈ s.requests b := by
        have : a ∈ (if b = t then (s.requests b).erase r else s.requests b) := hab
        rwa [if_neg hbt] at this
      exact hexcl a b hab2

theorem removeFriendCtrl_inv (a b : Nat) (s : FriendState)
    (hinv : FriendInv s) : FriendInv (removeFriendCtrl a b s) := by
  obtain ⟨hsym, hexcl⟩ := hinv
  have hmem : ∀ u x, x ∈ (removeFriendCtrl a b s).friends u →
      x ∈ s.friends u ∧ (u = a → x ≠ b) ∧ (u = b → x ≠ a) := by
    intro u x hx
    have hx2 : x ∈ (if u = a then (s.friends u).erase b
        else if u = b then (s.friends u).erase a else s.friends u) := hx
    by_cases h1 : u = a
    · rw [if_pos h1] at hx2
      refine ⟨(Finset.mem_erase.mp hx2).2, fun _ => (Finset.mem_erase.mp hx2).1, ?_⟩
      intro hub hxa
      exact (Finset.mem_erase.mp hx2).1 (hxa.trans ((h1.symm.trans hub).symm ▸ rfl))
    · rw [if_neg h1] at hx2
      by_cases h2 : u = b
      · rw [if_pos h2] at hx2
        exact ⟨(Finset.mem_erase.mp hx2).2, fun hua => absurd hua h1,
          fun _ => (Finset.mem_erase.mp hx2).1⟩
      · rw [if_neg h2] at hx2
        exact ⟨hx2, fun hua => absurd hua h1, fun hub => absurd hub h2⟩
  have hmem2 : ∀ u x, x ∈ s.friends u → (u = a → x ≠ b) → (u = b → x ≠ a) →
      x ∈ (removeFriendCtrl a b s).friends u := by
    intro u x hx hna hnb
    show x ∈ (if u = a then (s.friends u).erase b
        else if u = b then (s.friends u).erase a else s.friends u)
    by_cases h1 : u = a
    · rw [if_pos h1]
      exact Finset.mem_erase.mpr ⟨hna h1, hx⟩
    · rw [if_neg h1]
      by_cases h2 : u = b
      · rw [if_pos h2]
        exact Finset.mem_erase.mpr ⟨hnb h2, hx⟩
      · rw [if_neg h2]
        exact hx
  constructor
  · intro x y hxy
    obtain ⟨hf, hya, hyb⟩ := hmem y x hxy
    refine hmem2 x y (hsym x y hf) ?_ ?_
    · intro hxa hyeq
      exact hyb hyeq hxa
    · intro hxb hyeq
      exact hya hyeq hxb
  · intro x y hxy hcon
    obtain ⟨hf, _, _⟩ := hmem y x hcon
    exact hexcl x y hxy hf

theorem sendFriendRequestCtrl_inv (requester target : Nat) (s s1 : FriendState)
    (hinv : FriendInv s)
    (h : sendFriendRequestCtrl requester target s = Except.ok s1) :
    FriendInv s1 := by
  unfold sendFriendRequestCtrl at h
  by_cases hcross : target ∈ s.requests requester
  · rw [if_pos hcross] at h
    rcases hsend : UserService.sendFriendRequest target requester s with e | sA
    · rw [hsend] at h
      exact absurd h (by simp)
    · rw [hsend] at h
      have h2 : (match UserService.acceptFriendRequest target requester sA with
          | Except.error e => Except.error e
          | Except.ok s2 =>
            Except.ok (PrivateMessageService.createPrivateMessage target requester s2)) =
          Except.ok s1 := h
      rcases hacc : UserService.acceptFriendRequest target requester sA with e | sB
      · rw [hacc] at h2
        exact absurd h2 (by simp)
      · rw [hacc] at h2
        injection h2 with h2
        subst h2
        exact acceptFriendRequest_inv target requester sA sB
          (sendFriendRequest_inv target requester s sA hinv hsend) hacc
  · rw [if_neg hcross] at h
    exact sendFriendRequest_inv _ _ _ _ hinv h

theorem addFriendCtrl_inv (target requester : Nat) (s s1 : FriendState)
    (hinv : FriendInv s)
    (h : addFriendCtrl target requester s = Except.ok s1) : FriendInv s1 := by
  unfold addFriendCtrl at h
  rcases hacc : UserService.acceptFriendRequest target requester s with e | sA
  · rw [hacc] at h
    exact absurd h (by simp)
  · rw [hacc] at h
    injection h with h
    subst h
    exact acceptFriendRequest_inv target requester s sA hinv hacc

theorem applyFriendOp_inv (s : FriendState) (op : FriendOp)
    (hinv : FriendInv s) : FriendInv (applyFriendOp s op) := by
  cases op with
  | send requester target =>
    dsimp only [applyFriendOp]
    rcases hc : sendFriendRequestCtrl requester target s with e | s1
    · exact hinv
    · exact sendFriendRequestCtrl_inv requester target s s1 hinv hc
  | accept target requester =>
    dsimp only [applyFriendOp]
    rcases hc : addFriendCtrl target requester s with e | s1
    · exact hinv
    · exact addFriendCtrl_inv target requester s s1 hinv hc
  | reject target requester =>
    exact rejectFriendRequest_inv target requester s hinv
  | unfriend a b =>
    exact removeFriendCtrl_inv a b s hinv

theorem runFriendOps_inv (l : List FriendOp) : FriendInv (runFriendOps l) := by
  suffices h : ∀ s, FriendInv s → FriendInv (l.foldl applyFriendOp s) by
    apply h
    exact ⟨fun a b hab => absurd hab (Finset.not_mem_empty a),
      fun a b hab => absurd hab (Finset.not_mem_empty a)⟩
  induction l with
  | nil => exact fun s hs => hs
  | cons op rest ih =>
    intro s hs
    exact ih (applyFriendOp s op) (applyFriendOp_inv s op hs)

/-- C4: over every state reachable from the empty relationship state by
the friend operations (send, accept, reject, unfriend), the `PENDING`
and `FRIENDS` states of an unordered pair are mutually exclusive: a pair
with a pending marker in either direction is never simultaneously in
each other's friends sets. -/
theorem c4_pair_states_exclusive (l : List FriendOp) (a b : Nat)
    (hpend : a ∈ (runFriendOps l).requests b ∨ b ∈ (runFriendOps l).requests a) :
    ¬(a ∈ (runFriendOps l).friends b ∧ b ∈ (runFriendOps l).friends a) := by
  obtain ⟨hsym, hexcl⟩ := runFriendOps_inv l
  intro ⟨hab, hba⟩
  rcases hpend with hp | hp
  · exact hexcl a b hp hab
  · exact hexcl b a hp hba

theorem c4_pair_states_exclusive_witness :
    (1 ∈ (runFriendOps [FriendOp.send 1 2]).requests 2 ∨
      2 ∈ (runFriendOps [FriendOp.send 1 2]).requests 1) ∧
    ¬(1 ∈ (runFriendOps [FriendOp.send 1 2]).friends 2 ∧
      2 ∈ (runFriendOps [FriendOp.send 1 2]).friends 1) :=
  ⟨Or.inl (by decide), c4_pair_states_exclusive [FriendOp.send 1 2] 1 2
    (Or.inl (by decide))⟩

/-- C2: when B already has a pending request to A (A's inbound
`friendRequests` contains B), A's send collapses the cross-request
directly to `FRIENDS`: both users end up in each other's friends sets,
no pending marker is left in either direction, and exactly one private
conversation for the pair is provisioned. -/
theorem c2_cross_request_collapse (s : FriendState) (a b : Nat)
    (hpend : b ∈ s.requests a)
    (hnf : a ∉ s.friends b)
    (hcv : normPair a b ∉ s.convos) :
    ∃ s2, sendFriendRequestCtrl a b s = Except.ok s2 ∧
      a ∈ s2.friends b ∧ b ∈ s2.friends a ∧
      a ∉ s2.requests b ∧ b ∉ s2.requests a ∧
      s2.convos.count (normPair a b) = 1 := by
  have e1 : UserService.sendFriendRequest b a s = Except.ok
      ⟨s.friends,
        fun u => if u = b then insert a (s.requests u) else s.requests u,
        s.convos⟩ := by
    unfold UserService.sendFriendRequest
    rw [if_neg hnf]
  have hguard : a ∈ (⟨s.friends,
      fun u => if u = b then insert a (s.requests u) else s.requests u,
      s.convos⟩ : FriendState).requests b := by
    show a ∈ (if b = b then insert a (s.requests b) else s.requests b)
    rw [if_pos rfl]
    exact Finset.mem_insert_self a _
  have e2 : UserService.acceptFriendRequest b a
      ⟨s.friends,
        fun u => if u = b then insert a (s.requests u) else s.requests u,
        s.convos⟩ = Except.ok
      ⟨fun u => if u = b then insert a (s.friends u)
          else if u = a then insert b (s.friends u) else s.friends u,
        fun u => if u = b then
            ((if u = b then insert a (s.requests u) else s.requests u) :
              Finset Nat).erase a
          else if u = a then
            ((if u = b then insert a (s.requests u) else s.requests u) :
              Finset Nat).erase b
          else (if u = b then insert a (s.requests u) else s.requests u),
        s.convos⟩ := by
    unfold UserService.acceptFriendRequest
    rw [if_pos hguard]
  have e3 : sendFriendRequestCtrl a b s = Except.ok
      (PrivateMessageService.createPrivateMessage b a
        ⟨fun u => if u = b then insert a (s.friends u)
            else if u = a then insert b (s.friends u) else s.friends u,
          fun u => if u = b then
              ((if u = b then insert a (s.requests u) else s.requests u) :
                Finset Nat).erase a
            else if u = a then
              ((if u = b then insert a (s.requests u) else s.requests u) :
                Finset Nat).erase b
            else (if u = b then insert a (s.requests u) else s.requests u),
          s.convos⟩) := by
    unfold sendFriendRequestCtrl
    rw [if_pos hpend, e1]
    show (match UserService.acceptFriendRequest b a
        ⟨s.friends,
          fun u => if u = b then insert a (s.requests u) else s.requests u,
          s.convos⟩ with
      | Except.error e => Except.error e
      | Except.ok s2 =>
        Except.ok (PrivateMessageService.createPrivateMessage b a s2)) = _
    rw [e2]
  refine ⟨_, e3, ?_, ?_, ?_, ?_, ?_⟩
  · show a ∈ (if b = b then insert a (s.friends b)
      else if b = a then insert b (s.friends b) else s.friends b)
    rw [if_pos rfl]
    exact Finset.mem_insert_self a _
  · show b ∈ (if a = b then insert a (s.friends a)
      else if a = a then insert b (s.friends a) else s.friends a)
    by_cases hab2 : a = b
    · rw [if_pos hab2]
      subst hab2
      exact Finset.mem_insert_self a _
    · rw [if_neg hab2, if_pos rfl]
      exact Finset.mem_insert_self b _
  · show a ∉ (if b = b then
        ((if b = b then insert a (s.requests b) else s.requests b) :
          Finset Nat).erase a
      else if b = a then
        ((if b = b then insert a (s.requests b) else s.requests b) :
          Finset Nat).erase b
      else (if b = b then insert a (s.requests b) else s.requests b))
    rw [if_pos rfl]
    exact Finset.not_mem_erase a _
  · show b ∉ (if a = b then
        ((if a = b then insert a (s.requests a) else s.requests a) :
          Finset Nat).erase a
      else if a = a then
        ((if a = b then insert a (s.requests a) else s.requests a) :
          Finset Nat).erase b
      else (if a = b then insert a (s.requests a) else s.requests a))
    by_cases hab2 : a = b
    · rw [if_pos hab2, if_pos hab2]
      subst hab2
      exact Finset.not_mem_erase a _
    · rw [if_neg hab2, if_pos rfl, if_neg hab2]
      exact Finset.not_mem_erase b _
  · show (normPair b a :: s.convos).count (normPair a b) = 1
    rw [normPair_comm a b]
    rw [List.count_cons_self]
    have : s.convos.count (normPair b a) = 0 := by
      rw [List.count_eq_zero]
      rw [normPair_comm b a]
      exact hcv
    rw [this]

theorem c2_cross_request_collapse_witness :
    (2 ∈ (runFriendOps [FriendOp.send 2 1]).requests 1) ∧
    (1 ∉ (runFriendOps [FriendOp.send 2 1]).friends 2) ∧
    (normPair 1 2 ∉ (runFriendOps [FriendOp.send 2 1]).convos) ∧
    (∃ s2, sendFriendRequestCtrl 1 2 (runFriendOps [FriendOp.send 2 1]) =
        Except.ok s2 ∧
      1 ∈ s2.friends 2 ∧ 2 ∈ s2.friends 1 ∧
      1 ∉ s2.requests 2 ∧ 2 ∉ s2.requests 1 ∧
      s2.convos.count (normPair 1 2) = 1) :=
  ⟨by decide, by decide, by decide,
    c2_cross_request_collapse (runFriendOps [FriendOp.send 2 1]) 1 2
      (by decide) (by decide) (by decide)⟩

/-- C5: for a pair already in `FRIENDS` with an existing conversation
(and hence, by the state invariant, no pending marker), a repeated
accept (`addFriend`) fails with the typed request-not-found error and
leaves the conversation store unchanged: no duplicate conversation is
ever created. -/
theorem c5_accept_exactly_once (s : FriendState) (t r : Nat)
    (hf1 : r ∈ s.friends t) (hf2 : t ∈ s.friends r)
    (hnp : r ∉ s.requests t)
    (hcv : normPair t r ∈ s.convos) :
    addFriendCtrl t r s = Except.error requestNotFoundErr ∧
    (applyFriendOp s (FriendOp.accept t r)).convos = s.convos := by
  have he : UserService.acceptFriendRequest t r s =
      Except.error requestNotFoundErr := by
    unfold UserService.acceptFriendRequest
    rw [if_neg hnp]
  have hctrl : addFriendCtrl t r s = Except.error requestNotFoundErr := by
    unfold addFriendCtrl
    rw [he]
  refine ⟨hctrl, ?_⟩
  dsimp only [applyFriendOp]
  rw [hctrl]

theorem c5_accept_exactly_once_witness :
    (1 ∈ (runFriendOps [FriendOp.send 1 2, FriendOp.accept 2 1]).friends 2) ∧
    (2 ∈ (runFriendOps [FriendOp.send 1 2, FriendOp.accept 2 1]).friends 1) ∧
    (1 ∉ (runFriendOps [FriendOp.send 1 2, FriendOp.accept 2 1]).requests 2) ∧
    (normPair 2 1 ∈ (runFriendOps [FriendOp.send 1 2, FriendOp.accept 2 1]).convos) ∧
    (addFriendCtrl 2 1 (runFriendOps [FriendOp.send 1 2, FriendOp.accept 2 1]) =
        Except.error requestNotFoundErr ∧
      (applyFriendOp (runFriendOps [FriendOp.send 1 2, FriendOp.accept 2 1])
          (FriendOp.accept 2 1)).convos =
        (runFriendOps [FriendOp.send 1 2, FriendOp.accept 2 1]).convos) :=
  ⟨by decide, by decide, by decide, by decide,
    c5_accept_exactly_once (runFriendOps [FriendOp.send 1 2, FriendOp.accept 2 1])
      2 1 (by decide) (by decide) (by decide) (by decide)⟩

/-- C7: removing a friendship removes it from both users' friends sets
and deletes the pair's private conversation; with no pending markers
present (the `FRIENDS` state), the pair is left in state `NONE`. -/
theorem c7_remove_friend (s : FriendState) (a b : Nat)
    (hab : a ∈ s.friends b) (hba : b ∈ s.friends a)
    (hcv : normPair a b ∈ s.convos)
    (hr1 : a ∉ s.requests b) (hr2 : b ∉ s.requests a) :
    a ∉ (removeFriendCtrl a b s).friends b ∧
    b ∉ (removeFriendCtrl a b s).friends a ∧
    normPair a b ∉ (removeFriendCtrl a b s).convos ∧
    a ∉ (removeFriendCtrl a b s).requests b ∧
    b ∉ (removeFriendCtrl a b s).requests a := by
  refine ⟨?_, ?_, ?_, ?_, ?_⟩
  · show a ∉ (if b = a then (s.friends b).erase b
      else if b = b then (s.friends b).erase a else s.friends b)
    by_cases h1 : b = a
    · rw [if_pos h1]
      subst h1
      exact Finset.not_mem_erase b _
    · rw [if_neg h1, if_pos rfl]
      exact Finset.not_mem_erase a _
  · show b ∉ (if a = a then (s.friends a).erase b
      else if a = b then (s.friends a).erase a else s.friends a)
    rw [if_pos rfl]
    exact Finset.not_mem_erase b _
  · show normPair a b ∉ s.convos.filter (fun p => p ≠ normPair a b)
    intro hmem
    have := List.mem_filter.mp hmem
    simp at this
  · exact hr1
  · exact hr2

theorem c7_remove_friend_witness :
    (1 ∈ (runFriendOps [FriendOp.send 1 2, FriendOp.accept 2 1]).friends 2) ∧
    (2 ∈ (runFriendOps [FriendOp.send 1 2, FriendOp.accept 2 1]).friends 1) ∧
    (normPair 1 2 ∈ (runFriendOps [FriendOp.send 1 2, FriendOp.accept 2 1]).convos) ∧
    (1 ∉ (runFriendOps [FriendOp.send 1 2, FriendOp.accept 2 1]).requests 2) ∧
    (2 ∉ (runFriendOps [FriendOp.send 1 2, FriendOp.accept 2 1]).requests 1) ∧
    (1 ∉ (removeFriendCtrl 1 2 (runFriendOps [FriendOp.send 1 2, FriendOp.accept 2 1])).friends 2 ∧
     2 ∉ (removeFriendCtrl 1 2 (runFriendOps [FriendOp.send 1 2, FriendOp.accept 2 1])).friends 1 ∧
     normPair 1 2 ∉ (removeFriendCtrl 1 2 (runFriendOps [FriendOp.send 1 2, FriendOp.accept 2 1])).convos ∧
     1 ∉ (removeFriendCtrl 1 2 (runFriendOps [FriendOp.send 1 2, FriendOp.accept 2 1])).requests 2 ∧
     2 ∉ (removeFriendCtrl 1 2 (runFriendOps [FriendOp.send 1 2, FriendOp.accept 2 1])).requests 1) :=
  ⟨by decide, by decide, by decide, by decide, by decide,
    c7_remove_friend (runFriendOps [FriendOp.send 1 2, FriendOp.accept 2 1]) 1 2
      (by decide) (by decide) (by decide) (by decide) (by decide)⟩

namespace UserService

/-- Modelled from the spec: `UserService.getAssociatedUsers(userId)` is
not in the reviewed sources.  Spec section 4.3 step 1: the users
"associated by friendship or pending request" with the removed user, in
either direction. -/
def getAssociatedUsers (st : Store) (removed : UserRec) : List UserRec :=
  st.users.filter (fun u =>
    u.friends.contains removed.id || u.friendRequests.contains removed.id ||
    removed.friends.contains u.id || removed.friendRequests.contains u.id)

/-- Modelled from the spec:
`UserService.removeUserAssociations(associatedUser, removedUser)` is not
in the reviewed sources.  Spec section 4.3 step 1: "remove that
association symmetrically (friend removal deletes the matching private
conversation; pending-request removal just clears the marker)": both
users' `friends` and `friendRequests` entries for each other are
cleared, and the pair's private conversation records are deleted. -/
def removeUserAssociations (st : Store) (assoc removed : UserRec) : Store :=
  { st with
    users := st.users.map (fun u =>
      if u.id = assoc.id then
        { u with
          friends := u.friends.filter (fun x => x != removed.id)
          friendRequests := u.friendRequests.filter (fun x => x != removed.id) }
      else if u.id = removed.id then
        { u with
          friends := u.friends.filter (fun x => x != assoc.id)
          friendRequests := u.friendRequests.filter (fun x => x != assoc.id) }
      else u),
    convos := st.convos.filter (fun p => p != normPair assoc.id removed.id) }

/-- Modelled from the spec: `UserService.deleteUser(userId)` is not in
the reviewed sources; spec section 4.3 step 4: "delete the user record
itself". -/
def deleteUser (st : Store) (uid : Nat) : Store :=
  { st with users := st.users.filter (fun u => u.id != uid) }

end UserService

namespace ServerService

/-- Modelled from the spec: `ServerService.getJoinedServers(userId)` is
not in the reviewed sources; spec section 4.3 step 2 iterates over
"every server the user belongs to", i.e. the servers whose `users`
collection holds an entry for the user. -/
def getJoinedServers (st : Store) (uid : Nat) : List ServerRec :=
  st.servers.filter (fun srv => (srv.users.map (fun e => e.id)).contains uid)

/-- Modelled from the spec: `ServerService.deleteServer(server, user)`
is not in the reviewed sources; spec section 4.3 step 2: "delete the
entire server". -/
def deleteServer (st : Store) (srv : ServerRec) : Store :=
  { st with servers := st.servers.filter (fun t => t.id != srv.id) }

/-- Modelled from the spec: `ServerService.removeUser(server, user)` is
not in the reviewed sources; spec section 4.3 step 2: "remove only that
user's membership entry from the server's `users` collection". -/
def removeUser (st : Store) (srv : ServerRec) (removed : UserRec) : Store :=
  { st with
    servers := st.servers.map (fun t =>
      if t.id = srv.id then
        { t with users := t.users.filter (fun e => e.id != removed.id) }
      else t) }

end ServerService

namespace ChannelService

/-- Modelled from the spec:
`ChannelService.deleteServerChannels(server)` is not in the reviewed
sources; spec section 4.3 step 2: delete "all of its channels (and,
transitively, their messages)" — every channel owned by the server is
removed, together with every message record referenced by one of those
channels. -/
def deleteServerChannels (st : Store) (srv : ServerRec) : Store :=
  { st with
    channels := st.channels.filter (fun c => c.serverId != srv.id)
    messages := st.messages.filter (fun m =>
      !(st.channels.any (fun c =>
        c.serverId == srv.id && c.messages.contains m.id))) }

end ChannelService

namespace PrivateMessageService

/-- Modelled from the spec:
`PrivateMessageService.deleteUserPrivateMessages(user)` is not in the
reviewed sources; spec section 4.3 step 3: "Delete all private
conversations involving the user". -/
def deleteUserPrivateMessages (st : Store) (removed : UserRec) : Store :=
  { st with
    convos := st.convos.filter (fun p =>
      p.1 != removed.id && p.2 != removed.id) }

end PrivateMessageService

/-- Per-server branch of `deleteUser` (user.controller.js lines
258-265): if the removed user is the server's creator, delete the
server and then all of its channels; otherwise remove only the user's
membership entry. -/
def deleteUserServerStep (removed : UserRec) (st : Store) (srv : ServerRec) :
    Store :=
  if removed.id = srv.creatorId then
    ChannelService.deleteServerChannels (ServerService.deleteServer st srv) srv
  else
    ServerService.removeUser st srv removed

/-- `DELETE /api/user` (user.controller.js lines 242-282), as the
aggregate effect on the store once every issued persistence operation
has completed: fetch the session user, clear the associations with each
associated user, process each joined server, delete the user's private
conversations, and delete the user record.  (The source issues the
per-association and per-server operations inside un-awaited
`forEach(async ...)` callbacks; the completion *ordering* of those
operations is treated separately by the schedule model below.) -/
def deleteUserCtrl (st : Store) (sessionUid : Nat) : Except Err Store :=
  match UserService.getUserById st sessionUid with
  | Except.error e => Except.error e
  | Except.ok removedUser =>
    let st1 := (UserService.getAssociatedUsers st removedUser).foldl
      (fun w assoc => UserService.removeUserAssociations w assoc removedUser) st
    let st2 := (ServerService.getJoinedServers st1 removedUser.id).foldl
      (deleteUserServerStep removedUser) st1
    let st3 := PrivateMessageService.deleteUserPrivateMessages st2 removedUser
    Except.ok (UserService.deleteUser st3 removedUser.id)

theorem assocFold_servers (rU : UserRec) (l : List UserRec) (st : Store) :
    (l.foldl (fun w assoc => UserService.removeUserAssociations w assoc rU) st).servers
      = st.servers := by
  induction l generalizing st with
  | nil => rfl
  | cons a rest ih => exact ih (UserService.removeUserAssociations st a rU)

theorem assocFold_channels (rU : UserRec) (l : List UserRec) (st : Store) :
    (l.foldl (fun w assoc => UserService.removeUserAssociations w assoc rU) st).channels
      = st.channels := by
  induction l generalizing st with
  | nil => rfl
  | cons a rest ih => exact ih (UserService.removeUserAssociations st a rU)

theorem serverStep_id_preserved (rU : UserRec) (st : Store) (srv2 : ServerRec)
    (X : Nat) (h : ∀ t ∈ st.servers, t.id ≠ X) :
    ∀ t ∈ (deleteUserServerStep rU st srv2).servers, t.id ≠ X := by
  intro t ht
  unfold deleteUserServerStep at ht
  by_cases hcr : rU.id = srv2.creatorId
  · rw [if_pos hcr] at ht
    have ht2 : t ∈ st.servers.filter (fun s => s.id != srv2.id) := ht
    exact h t (List.mem_of_mem_filter ht2)
  · rw [if_neg hcr] at ht
    have ht2 : t ∈ st.servers.map (fun s =>
        if s.id = srv2.id then
          { s with users := s.users.filter (fun e => e.id != rU.id) }
        else s) := ht
    obtain ⟨orig, horig, hf⟩ := List.mem_map.mp ht2
    have hid : t.id = orig.id := by
      by_cases h2 : orig.id = srv2.id
      · rw [← hf, if_pos h2]
      · rw [← hf, if_neg h2]
    rw [hid]
    exact h orig horig

theorem serverStep_chan_preserved (rU : UserRec) (st : Store) (srv2 : ServerRec)
    (X : Nat) (h : ∀ c ∈ st.channels, c.serverId ≠ X) :
    ∀ c ∈ (deleteUserServerStep rU st srv2).channels, c.serverId ≠ X := by
  intro c hc
  unfold deleteUserServerStep at hc
  by_cases hcr : rU.id = srv2.creatorId
  · rw [if_pos hcr] at hc
    have hc2 : c ∈ st.channels.filter (fun d => d.serverId != srv2.id) := hc
    exact h c (List.mem_of_mem_filter hc2)
  · rw [if_neg hcr] at hc
    exact h c hc

theorem serverFold_preserves_absent (rU : UserRec) (X : Nat)
    (l : List ServerRec) :
    ∀ st : Store, (∀ t ∈ st.servers, t.id ≠ X) →
      (∀ c ∈ st.channels, c.serverId ≠ X) →
      (∀ t ∈ (l.foldl (deleteUserServerStep rU) st).servers, t.id ≠ X) ∧
      (∀ c ∈ (l.foldl (deleteUserServerStep rU) st).channels, c.serverId ≠ X) := by
  induction l with
  | nil => exact fun st hs hc => ⟨hs, hc⟩
  | cons srv2 rest ih =>
    intro st hs hc
    exact ih (deleteUserServerStep rU st srv2)
      (serverStep_id_preserved rU st srv2 X hs)
      (serverStep_chan_preserved rU st srv2 X hc)

theorem serverStep_self_creator (rU : UserRec) (st : Store) (srv : ServerRec)
    (hcr : rU.id = srv.creatorId) :
    (∀ t ∈ (deleteUserServerStep rU st srv).servers, t.id ≠ srv.id) ∧
    (∀ c ∈ (deleteUserServerStep rU st srv).channels, c.serverId ≠ srv.id) := by
  unfold deleteUserServerStep
  rw [if_pos hcr]
  constructor
  · intro t ht
    have ht2 : t ∈ st.servers.filter (fun s => s.id != srv.id) := ht
    have := (List.mem_filter.mp ht2).2
    simpa using this
  · intro c hc
    have hc2 : c ∈ st.channels.filter (fun d => d.serverId != srv.id) := hc
    have := (List.mem_filter.mp hc2).2
    simpa using this

theorem serverFold_creator (rU : UserRec) (srv : ServerRec)
    (hcr : rU.id = srv.creatorId) (l : List ServerRec) :
    ∀ st : Store, srv ∈ l →
      (∀ t ∈ (l.foldl (deleteUserServerStep rU) st).servers, t.id ≠ srv.id) ∧
      (∀ c ∈ (l.foldl (deleteUserServerStep rU) st).channels,
        c.serverId ≠ srv.id) := by
  induction l with
  | nil => exact fun st hmem => absurd hmem (List.not_mem_nil srv)
  | cons h2 rest ih =>
    intro st hmem
    rcases List.mem_cons.mp hmem with heq | hmemT
    · subst heq
      obtain ⟨hs, hc⟩ := serverStep_self_creator rU st srv hcr
      exact serverFold_preserves_absent rU srv.id rest
        (deleteUserServerStep rU st srv) hs hc
    · exact ih (deleteUserServerStep rU st h2) hmemT

theorem serverStep_keeps (rU : UserRec) (st : Store) (srv2 : ServerRec)
    (t : ServerRec) (hne : t.id ≠ srv2.id) (ht : t ∈ st.servers) :
    t ∈ (deleteUserServerStep rU st srv2).servers := by
  unfold deleteUserServerStep
  by_cases hcr : rU.id = srv2.creatorId
  · rw [if_pos hcr]
    show t ∈ st.servers.filter (fun s => s.id != srv2.id)
    refine List.mem_filter.mpr ⟨ht, ?_⟩
    simpa using hne
  · rw [if_neg hcr]
    show t ∈ st.servers.map (fun s =>
      if s.id = srv2.id then
        { s with users := s.users.filter (fun e => e.id != rU.id) }
      else s)
    exact List.mem_map.mpr ⟨t, ht, by rw [if_neg hne]⟩

theorem serverFold_keeps (rU : UserRec) (t : ServerRec) (l : List ServerRec)
    (h : ∀ srv2 ∈ l, t.id ≠ srv2.id) :
    ∀ st : Store, t ∈ st.servers →
      t ∈ (l.foldl (deleteUserServerStep rU) st).servers := by
  induction l with
  | nil => exact fun st ht => ht
  | cons srv2 rest ih =>
    intro st ht
    exact ih (fun s2 hs2 => h s2 (List.mem_cons_of_mem srv2 hs2))
      (deleteUserServerStep rU st srv2)
      (serverStep_keeps rU st srv2 t (h srv2 (List.mem_cons_self srv2 rest)) ht)

theorem serverFold_noncreator (rU : UserRec) (srv : ServerRec)
    (hcr : rU.id ≠ srv.creatorId) (l : List ServerRec) :
    ∀ st : Store, srv ∈ l → (l.map (fun s => s.id)).Nodup →
      srv ∈ st.servers →
      { srv with users := srv.users.filter (fun e => e.id != rU.id) } ∈
        (l.foldl (deleteUserServerStep rU) st).servers := by
  induction l with
  | nil => exact fun st hmem _ _ => absurd hmem (List.not_mem_nil srv)
  | cons h2 rest ih =>
    intro st hmem hnodup hsrvmem
    rcases List.mem_cons.mp hmem with heq | hmemT
    · subst heq
      have hstep : { srv with
          users := srv.users.filter (fun e => e.id != rU.id) } ∈
          (deleteUserServerStep rU st srv).servers := by
        unfold deleteUserServerStep
        rw [if_neg hcr]
        show _ ∈ st.servers.map (fun s =>
          if s.id = srv.id then
            { s with users := s.users.filter (fun e => e.id != rU.id) }
          else s)
        exact List.mem_map.mpr ⟨srv, hsrvmem, by rw [if_pos rfl]⟩
      refine serverFold_keeps rU _ rest ?_ _ hstep
      intro s2 hs2 hid
      have hhead : srv.id ∉ rest.map (fun s => s.id) :=
        (List.nodup_cons.mp hnodup).1
      exact hhead (hid ▸ List.mem_map.mpr ⟨s2, hs2, rfl⟩)
    · have hne : srv.id ≠ h2.id := by
        intro hid
        have hhead : h2.id ∉ rest.map (fun s => s.id) :=
          (List.nodup_cons.mp hnodup).1
        exact hhead (hid ▸ List.mem_map.mpr ⟨srv, hmemT, rfl⟩)
      exact ih (deleteUserServerStep rU st h2) hmemT
        (List.nodup_cons.mp hnodup).2
        (serverStep_keeps rU st h2 srv hne hsrvmem)

theorem serverStep_msg_preserved (rU : UserRec) (st : Store)
    (srv2 : ServerRec) (X : Nat) (h : ∀ m ∈ st.messages, m.id ≠ X) :
    ∀ m ∈ (deleteUserServerStep rU st srv2).messages, m.id ≠ X := by
  intro m hm
  unfold deleteUserServerStep at hm
  by_cases hcr : rU.id = srv2.creatorId
  · rw [if_pos hcr] at hm
    have hm2 : m ∈ st.messages.filter (fun m2 =>
        !(st.channels.any (fun c =>
          c.serverId == srv2.id && c.messages.contains m2.id))) := hm
    exact h m (List.mem_of_mem_filter hm2)
  · rw [if_neg hcr] at hm
    exact h m hm

theorem serverFold_preserves_msg_absent (rU : UserRec) (X : Nat)
    (l : List ServerRec) :
    ∀ st : Store, (∀ m ∈ st.messages, m.id ≠ X) →
      ∀ m ∈ (l.foldl (deleteUserServerStep rU) st).messages, m.id ≠ X := by
  induction l with
  | nil => exact fun st h => h
  | cons srv2 rest ih =>
    intro st h
    exact ih _ (serverStep_msg_preserved rU st srv2 X h)

theorem serverStep_self_creator_msgs (rU : UserRec) (st : Store)
    (srv : ServerRec) (hcr : rU.id = srv.creatorId) (c : ChannelRec)
    (hc : c ∈ st.channels) (hcs : c.serverId = srv.id) (mid : Nat)
    (hmid : mid ∈ c.messages) :
    ∀ m ∈ (deleteUserServerStep rU st srv).messages, m.id ≠ mid := by
  intro m hm hcontra
  unfold deleteUserServerStep at hm
  rw [if_pos hcr] at hm
  have hm2 : m ∈ st.messages.filter (fun m2 =>
      !(st.channels.any (fun d =>
        d.serverId == srv.id && d.messages.contains m2.id))) := hm
  have hpred := (List.mem_filter.mp hm2).2
  have hany : st.channels.any (fun d =>
      d.serverId == srv.id && d.messages.contains m.id) = true := by
    refine List.any_eq_true.mpr ⟨c, hc, ?_⟩
    rw [Bool.and_eq_true]
    constructor
    · exact beq_iff_eq.mpr hcs
    · rw [hcontra]
      exact List.elem_iff.mpr hmid
  rw [hany] at hpred
  simp at hpred

theorem serverStep_keeps_channel (rU : UserRec) (st : Store)
    (srv2 : ServerRec) (c : ChannelRec) (hne : c.serverId ≠ srv2.id)
    (hc : c ∈ st.channels) :
    c ∈ (deleteUserServerStep rU st srv2).channels := by
  unfold deleteUserServerStep
  by_cases hcr : rU.id = srv2.creatorId
  · rw [if_pos hcr]
    show c ∈ st.channels.filter (fun d => d.serverId != srv2.id)
    refine List.mem_filter.mpr ⟨hc, ?_⟩
    simpa using hne
  · rw [if_neg hcr]
    exact hc

theorem serverFold_creator_msgs (rU : UserRec) (srv : ServerRec)
    (hcr : rU.id = srv.creatorId) (l : List ServerRec) :
    ∀ st : Store, srv ∈ l → (l.map (fun s => s.id)).Nodup →
      ∀ c ∈ st.channels, c.serverId = srv.id →
      ∀ mid ∈ c.messages,
      ∀ m ∈ (l.foldl (deleteUserServerStep rU) st).messages, m.id ≠ mid := by
  induction l with
  | nil => exact fun st hmem _ => absurd hmem (List.not_mem_nil srv)
  | cons h2 rest ih =>
    intro st hmem hnodup c hc hcs mid hmid
    rcases List.mem_cons.mp hmem with heq | hmemT
    · subst heq
      exact serverFold_preserves_msg_absent rU mid rest _
        (serverStep_self_creator_msgs rU st srv hcr c hc hcs mid hmid)
    · have hne : srv.id ≠ h2.id := by
        intro hid
        have hhead : h2.id ∉ rest.map (fun s => s.id) :=
          (List.nodup_cons.mp hnodup).1
        exact hhead (hid ▸ List.mem_map.mpr ⟨srv, hmemT, rfl⟩)
      exact ih (deleteUserServerStep rU st h2) hmemT
        (List.nodup_cons.mp hnodup).2 c
        (serverStep_keeps_channel rU st h2 c (by rw [hcs]; exact hne) hc)
        hcs mid hmid

/-- C6: for every server the deleted user belongs to, `deleteUser`
removes the whole server record, every channel owned by it and,
transitively, every message of those channels when the user is the
creator, and otherwise keeps the server with only the user's membership
entry removed. -/
theorem c6_delete_user_servers (st : Store) (uid : Nat)
    (removedUser : UserRec) (stFinal : Store)
    (hu : UserService.getUserById st uid = Except.ok removedUser)
    (hnodup : (st.servers.map (fun s => s.id)).Nodup)
    (hrun : deleteUserCtrl st uid = Except.ok stFinal) :
    ∀ srv ∈ ServerService.getJoinedServers st removedUser.id,
      (removedUser.id = srv.creatorId →
        (∀ t ∈ stFinal.servers, t.id ≠ srv.id) ∧
        (∀ c ∈ stFinal.channels, c.serverId ≠ srv.id) ∧
        (∀ c ∈ st.channels, c.serverId = srv.id →
          ∀ mid ∈ c.messages, ∀ m ∈ stFinal.messages, m.id ≠ mid)) ∧
      (removedUser.id ≠ srv.creatorId →
        { srv with users := srv.users.filter (fun e => e.id != removedUser.id) } ∈
          stFinal.servers) := by
  unfold deleteUserCtrl at hrun
  rw [hu] at hrun
  have hrun2 : Except.ok (UserService.deleteUser
      (PrivateMessageService.deleteUserPrivateMessages
        ((ServerService.getJoinedServers
            ((UserService.getAssociatedUsers st removedUser).foldl
              (fun w assoc =>
                UserService.removeUserAssociations w assoc removedUser) st)
            removedUser.id).foldl (deleteUserServerStep removedUser)
          ((UserService.getAssociatedUsers st removedUser).foldl
            (fun w assoc =>
              UserService.removeUserAssociations w assoc removedUser) st))
        removedUser) removedUser.id) = Except.ok stFinal := hrun
  injection hrun2 with hrun2
  subst hrun2
  have hs1 : ((UserService.getAssociatedUsers st removedUser).foldl
      (fun w assoc => UserService.removeUserAssociations w assoc removedUser)
      st).servers = st.servers :=
    assocFold_servers removedUser _ st
  have hjoined : ServerService.getJoinedServers
      ((UserService.getAssociatedUsers st removedUser).foldl
        (fun w assoc => UserService.removeUserAssociations w assoc removedUser)
        st) removedUser.id =
      ServerService.getJoinedServers st removedUser.id := by
    unfold ServerService.getJoinedServers
    rw [hs1]
  intro srv hsrv
  have hsrvmem1 : srv ∈ ServerService.getJoinedServers
      ((UserService.getAssociatedUsers st removedUser).foldl
        (fun w assoc => UserService.removeUserAssociations w assoc removedUser)
        st) removedUser.id := by
    rw [hjoined]
    exact hsrv
  have hsrvin1 : srv ∈ ((UserService.getAssociatedUsers st removedUser).foldl
      (fun w assoc => UserService.removeUserAssociations w assoc removedUser)
      st).servers := by
    have h2 : srv ∈ ((UserService.getAssociatedUsers st removedUser).foldl
        (fun w assoc => UserService.removeUserAssociations w assoc removedUser)
        st).servers.filter (fun t =>
          (t.users.map (fun e => e.id)).contains removedUser.id) := hsrvmem1
    exact List.mem_of_mem_filter h2
  have hnodup1 : ((ServerService.getJoinedServers
      ((UserService.getAssociatedUsers st removedUser).foldl
        (fun w assoc => UserService.removeUserAssociations w assoc removedUser)
        st) removedUser.id).map (fun s => s.id)).Nodup := by
    have hsublist : List.Sublist
        (ServerService.getJoinedServers
          ((UserService.getAssociatedUsers st removedUser).foldl
            (fun w assoc =>
              UserService.removeUserAssociations w assoc removedUser) st)
          removedUser.id)
        (((UserService.getAssociatedUsers st removedUser).foldl
          (fun w assoc =>
            UserService.removeUserAssociations w assoc removedUser) st).servers) :=
      List.filter_sublist _
    have hmapsub := hsublist.map (fun s => s.id)
    rw [hs1] at hmapsub
    exact hnodup.sublist hmapsub
  constructor
  · intro hcr
    refine ⟨(serverFold_creator removedUser srv hcr _ _ hsrvmem1).1,
      (serverFold_creator removedUser srv hcr _ _ hsrvmem1).2, ?_⟩
    intro c hc hcs mid hmid
    have hc1 : c ∈ ((UserService.getAssociatedUsers st removedUser).foldl
        (fun w assoc => UserService.removeUserAssociations w assoc removedUser)
        st).channels := by
      rw [assocFold_channels]
      exact hc
    exact serverFold_creator_msgs removedUser srv hcr _ _ hsrvmem1 hnodup1
      c hc1 hcs mid hmid
  · intro hcr
    exact serverFold_noncreator removedUser srv hcr _ _ hsrvmem1 hnodup1 hsrvin1

/-- Store for the C6 witness: user 1 created server 10 (channels 100
and 101, channel 100 holding message 500) and is an ordinary member of
server 20, created by user 2. -/
def stDel : Store :=
  ⟨[⟨1, "alice", [], []⟩, ⟨2, "bob", [], []⟩],
    [⟨10, "s", 1, [⟨1, 9⟩], [100, 101]⟩, ⟨20, "t", 2, [⟨2, 9⟩, ⟨1, 3⟩], []⟩],
    [⟨100, 10, "c1", "", 0, [500]⟩, ⟨101, 10, "c2", "", 0, []⟩],
    [⟨500, 1, "hi"⟩], []⟩

theorem c6_delete_user_servers_witness :
    (UserService.getUserById stDel 1 = Except.ok ⟨1, "alice", [], []⟩) ∧
    ((stDel.servers.map (fun s => s.id)).Nodup) ∧
    (deleteUserCtrl stDel 1 = Except.ok
      ⟨[⟨2, "bob", [], []⟩], [⟨20, "t", 2, [⟨2, 9⟩], []⟩], [], [], []⟩) ∧
    (∀ srv ∈ ServerService.getJoinedServers stDel
        (⟨1, "alice", [], []⟩ : UserRec).id,
      ((⟨1, "alice", [], []⟩ : UserRec).id = srv.creatorId →
        (∀ t ∈ (⟨[⟨2, "bob", [], []⟩], [⟨20, "t", 2, [⟨2, 9⟩], []⟩], [], [], []⟩ :
            Store).servers, t.id ≠ srv.id) ∧
        (∀ c ∈ (⟨[⟨2, "bob", [], []⟩], [⟨20, "t", 2, [⟨2, 9⟩], []⟩], [], [], []⟩ :
            Store).channels, c.serverId ≠ srv.id) ∧
        (∀ c ∈ stDel.channels, c.serverId = srv.id →
          ∀ mid ∈ c.messages,
          ∀ m ∈ (⟨[⟨2, "bob", [], []⟩], [⟨20, "t", 2, [⟨2, 9⟩], []⟩], [], [], []⟩ :
            Store).messages, m.id ≠ mid)) ∧
      ((⟨1, "alice", [], []⟩ : UserRec).id ≠ srv.creatorId →
        { srv with users := srv.users.filter (fun e =>
            e.id != (⟨1, "alice", [], []⟩ : UserRec).id) } ∈
          (⟨[⟨2, "bob", [], []⟩], [⟨20, "t", 2, [⟨2, 9⟩], []⟩], [], [], []⟩ :
            Store).servers)) :=
  ⟨rfl, by decide, rfl,
    c6_delete_user_servers stDel 1 ⟨1, "alice", [], []⟩
      ⟨[⟨2, "bob", [], []⟩], [⟨20, "t", 2, [⟨2, 9⟩], []⟩], [], [], []⟩
      rfl (by decide) rfl⟩

/-- One persistence operation issued by the `deleteUser` route
(user.controller.js lines 242-282), in the order the source initiates
them. -/
inductive DStep where
  | getUser
  | getAssociated
  | removeAssoc (i : Nat)
  | getJoined
  | serverCleanup (i : Nat)
  | deletePMs
  | deleteRecord
  | destroySess
deriving DecidableEq, Repr

/-- Awaitedness of an operation in a schedule: the Boolean paired with
each operation records whether the surrounding flow awaits the
operation's completion before continuing. -/
def isAwaited {α : Type} [DecidableEq α] (sched : List (α × Bool)) (op : α) :
    Bool :=
  match sched.find? (fun p => decide (p.1 = op)) with
  | some p => p.2
  | none => false

/-- Initiation position of an operation in a schedule. -/
def initIdx {α : Type} [DecidableEq α] (sched : List (α × Bool)) (op : α) :
    Option Nat :=
  sched.findIdx? (fun p => decide (p.1 = op))

/-- Guaranteed completion ordering induced by a schedule under the
event-loop semantics of `async`/`await`: operation `a` is guaranteed to
complete before operation `b` starts iff `a`'s completion is awaited
and `a` is initiated before `b`; the completion of an operation fired
inside an un-awaited callback is unordered with respect to everything
initiated later. -/
def completesBefore {α : Type} [DecidableEq α] (sched : List (α × Bool))
    (a b : α) : Bool :=
  isAwaited sched a &&
    (match initIdx sched a, initIdx sched b with
     | some i, some j => decide (i < j)
     | _, _ => false)

/-- Schedule of `deleteUser` for `nAssoc` associated users and
`nServers` joined servers, read off user.controller.js lines 242-282:
`getUserById`, `getAssociatedUsers`, `getJoinedServers`,
`deleteUserPrivateMessages`, `deleteUser` and `session.destroy()` are
sequenced with `await` (or run synchronously after the previous await),
while each `removeUserAssociations` call (line 252) and each per-server
cleanup (lines 258-265) happens inside a `forEach(async ...)` callback
whose promise is never awaited. -/
def deleteUserSchedule (nAssoc nServers : Nat) : List (DStep × Bool) :=
  [(DStep.getUser, true), (DStep.getAssociated, true)]
  ++ (List.range nAssoc).map (fun i => (DStep.removeAssoc i, false))
  ++ [(DStep.getJoined, true)]
  ++ (List.range nServers).map (fun i => (DStep.serverCleanup i, false))
  ++ [(DStep.deletePMs, true), (DStep.deleteRecord, true),
      (DStep.destroySess, true)]

/-- C3: in `deleteUser`, step 3 (private-conversation deletion) is
awaited before the user record is deleted, and the session is destroyed
only after the record deletion; but the step-1 association removals and
the step-2 per-server cleanups are fired inside un-awaited
`forEach(async ...)` callbacks, so their completion is NOT guaranteed
to precede the user-record deletion, contradicting the claim that steps
1-3 complete before the user record is deleted. -/
theorem c3_cleanup_not_awaited :
    completesBefore (deleteUserSchedule 1 1) (DStep.removeAssoc 0)
      DStep.deleteRecord = false
    ∧ completesBefore (deleteUserSchedule 1 1) (DStep.serverCleanup 0)
      DStep.deleteRecord = false
    ∧ completesBefore (deleteUserSchedule 1 1) DStep.deletePMs
      DStep.deleteRecord = true
    ∧ completesBefore (deleteUserSchedule 1 1) DStep.deleteRecord
      DStep.destroySess = true := by decide

/-- JSON response of a mutation route: 204 with no body, or an error
body with the translated status code and message. -/
inductive ApiResponse where
  | noContent
  | errJson (statusCode : Nat) (message : String)
deriving DecidableEq, Repr

/-- Response of a route when exactly the given operation fails with the
typed error `e`: the rejection of an awaited operation propagates to
the route's try/catch and is translated into `error.statusCode` and
`error.message`; a rejection inside an un-awaited `forEach(async ...)`
callback never reaches the handler, and the route still answers 204. -/
def responseOnFailure {α : Type} [DecidableEq α] (sched : List (α × Bool))
    (failing : α) (e : Err) : ApiResponse :=
  if isAwaited sched failing then ApiResponse.errJson e.statusCode e.message
  else ApiResponse.noContent

/-- Operations of the `removeFriend` route (user.controller.js lines
386-410). -/
inductive RStep where
  | getFriend
  | getSelf
  | deletePM
  | removeFriendOp
deriving DecidableEq, Repr

/-- Schedule of `removeFriend`: every operation is awaited. -/
def removeFriendSchedule : List (RStep × Bool) :=
  [(RStep.getFriend, true), (RStep.getSelf, true), (RStep.deletePM, true),
    (RStep.removeFriendOp, true)]

/-- C9: a failure of a constituent step of `removeFriend` is reported
to the caller as the translated status and message, but a failure of a
`deleteUser` association-removal step — fired in an un-awaited
`forEach(async ...)` callback — is silently swallowed: the route still
answers 204 while the remaining steps proceed, contradicting the claim
that every constituent failure is surfaced. -/
theorem c9_failure_swallowed :
    responseOnFailure (deleteUserSchedule 1 0) (DStep.removeAssoc 0)
      ⟨500, "Database write failed."⟩ = ApiResponse.noContent
    ∧ responseOnFailure removeFriendSchedule RStep.deletePM
      ⟨404, "Private message not found."⟩ =
      ApiResponse.errJson 404 "Private message not found." := by decide

/-- Result of the `POST /server` route. -/
inductive CreateServerResult where
  | badRequest (message : String)
  | serverError (message : String)
  | created (serverId : Nat)
deriving DecidableEq, Repr

/-- `POST /server` (server controller, createServer, lines 230-272 of
the combined controller source): validate the name, pre-generate the
server id, create the "general" channel first, then create the server
record with the session user's entry at permission level 9 and the
channel attached, and redirect to the new server.  The validators and
the `Channel.create`/`Server.create` collaborator outcomes (the source
checks them for falsy results) are modelled by the `nameOk`,
`uniqueOk`, `channelOk` and `serverOk` flags; a failed create persists
nothing, a successful one appends the record. -/
def createServer (st : Store) (sessionUid : Nat) (name : String)
    (nameOk uniqueOk channelOk serverOk : Bool)
    (freshServerId freshChannelId : Nat) : CreateServerResult × Store :=
  if !nameOk then (CreateServerResult.badRequest "Invalid server name.", st)
  else if !uniqueOk then
    (CreateServerResult.badRequest "Server name taken.", st)
  else if !channelOk then
    (CreateServerResult.serverError "Unable to create general channel.", st)
  else if !serverOk then
    (CreateServerResult.serverError "Unable to create server.",
      { st with channels :=
        st.channels ++ [⟨freshChannelId, freshServerId, "general", "", 0, []⟩] })
  else
    (CreateServerResult.created freshServerId,
      { st with
        channels :=
          st.channels ++ [⟨freshChannelId, freshServerId, "general", "", 0, []⟩]
        servers :=
          st.servers ++
            [⟨freshServerId, name, sessionUid, [⟨sessionUid, 9⟩],
              [freshChannelId]⟩] })

/-- C8 counterexample: when `Server.create` fails after the "general"
channel was created (empty store, session user 7, fresh ids 10/100),
the route answers 500 but the already-created "general" channel remains
while no server with its id exists — an orphan channel is left, so
creation is not atomic and the claim as stated is false. -/
theorem c8_counterexample :
    ((createServer ⟨[], [], [], [], []⟩ 7 "team" true true true false 10 100).1 =
      CreateServerResult.serverError "Unable to create server.") ∧
    (∃ c ∈ (createServer ⟨[], [], [], [], []⟩ 7 "team" true true true false
      10 100).2.channels, c.serverId = 10) ∧
    (∀ s ∈ (createServer ⟨[], [], [], [], []⟩ 7 "team" true true true false
      10 100).2.servers, s.id ≠ 10) := by decide

/-- C8 (amended): every server successfully created by `createServer`
is persisted with the creator's entry at the maximum permission level 9
and with the default "general" channel attached (never zero channels);
but the "general" channel is created before the server and is not
rolled back, so when server creation fails the channel record remains
in the store with no owning server. -/
theorem c8_create_server (st : Store) (sessionUid : Nat) (name : String)
    (sid chid : Nat) :
    ((createServer st sessionUid name true true true true sid chid).1 =
      CreateServerResult.created sid ∧
     (⟨sid, name, sessionUid, [⟨sessionUid, 9⟩], [chid]⟩ : ServerRec) ∈
       (createServer st sessionUid name true true true true sid chid).2.servers ∧
     (⟨chid, sid, "general", "", 0, []⟩ : ChannelRec) ∈
       (createServer st sessionUid name true true true true sid chid).2.channels) ∧
    ((createServer st sessionUid name true true true false sid chid).1 =
      CreateServerResult.serverError "Unable to create server." ∧
     (⟨chid, sid, "general", "", 0, []⟩ : ChannelRec) ∈
       (createServer st sessionUid name true true true false sid chid).2.channels ∧
     (createServer st sessionUid name true true true false sid chid).2.servers =
       st.servers) := by
  unfold createServer
  simp
